import Mathlib

/-!
Verification development for the fuse-box resolution engine and its
supporting configuration/plugin code.

The development shallowly embeds:
* the module-resolution engine (alias matcher, TypeScript path matcher,
  filesystem resolver, node-style package resolver, orchestrator),
* `TypescriptConfig.normalizeTSPaths`,
* the `SassPluginClass.transform` render callback,
* the package-metadata cache.

String manipulation is done over `String.data` (`List Char`) with
structurally recursive helpers, so every definition evaluates by kernel
reduction on concrete inputs.
-/

namespace FuseBox

/-! ## Character-list string helpers -/

/-- The character list underlying a string. -/
def chars (s : String) : List Char := s.data

/-- Build a string back from a character list. -/
def ofChars (l : List Char) : String := ⟨l⟩

/-- Length of a string, via its character list. -/
def strLen (s : String) : Nat := s.data.length

/-- Does list `l` start with list `p`? -/
def listStartsWith : List Char → List Char → Bool
  | _, [] => true
  | [], _ :: _ => false
  | a :: as, b :: bs => a == b && listStartsWith as bs

/-- `strStartsWith s p` : does `s` start with `p`? -/
def strStartsWith (s p : String) : Bool := listStartsWith s.data p.data

/-- Does list `l` end with list `p`? -/
def listEndsWith (l p : List Char) : Bool := listStartsWith l.reverse p.reverse

/-- `strEndsWith s p` : does `s` end with `p`? -/
def strEndsWith (s p : String) : Bool := listEndsWith s.data p.data

/-- Drop the first `n` characters of a string. -/
def strDrop (s : String) (n : Nat) : String := ⟨s.data.drop n⟩

/-- Drop the last `n` characters of a string. -/
def strDropRight (s : String) (n : Nat) : String := ⟨s.data.take (s.data.length - n)⟩

/-- Does the character list contain `needle` as a contiguous infix?
(`listHasInfix [] l = true`, matching JavaScript `includes("")`.) -/
def listHasInfix (needle : List Char) : List Char → Bool
  | [] => listStartsWith [] needle
  | h :: t => listStartsWith (h :: t) needle || listHasInfix needle t

/-- JavaScript `String.prototype.includes`: substring containment. -/
def strIncludes (s sub : String) : Bool := listHasInfix sub.data s.data

/-- Split a character list at every occurrence of character `c`.
The accumulator holds the current segment in reverse. -/
def splitCharAux (c : Char) : List Char → List Char → List (List Char)
  | [], acc => [acc.reverse]
  | x :: xs, acc =>
    if x == c then acc.reverse :: splitCharAux c xs []
    else splitCharAux c xs (x :: acc)

/-- Split a string on a single character; always returns at least one segment. -/
def splitChar (c : Char) (s : String) : List (List Char) := splitCharAux c s.data []

/-- Membership in a list of strings (decidable equality, kernel-reducible). -/
def memStr (x : String) : List String → Bool
  | [] => false
  | y :: ys => if x = y then true else memStr x ys

/-- Association-list lookup keyed by strings. -/
def lookupStr {α : Type} (x : String) : List (String × α) → Option α
  | [] => none
  | (k, v) :: ys => if x = k then some v else lookupStr x ys

/-! ## Path & extension utilities (spec §4.1)

Modelled from the spec: the resolver sources (`src/resolver/resolver.ts` and
the path utilities it uses) are not among the provided sources — only their
test file is — so these utilities follow spec §4.1: posix forward-slash
paths, an ordered source-extension priority list, and a total
source→output extension map. -/

/-- Last `/`-separated segment of a path. -/
def lastSegment (p : String) : List Char := (splitChar '/' p).getLastD []

/-- Extension of a path: `"." ++` the part of the final segment after its
last dot, or `""` when the final segment has no dot. -/
def extOf (p : String) : String :=
  match splitChar '.' (ofChars (lastSegment p)) with
  | [] => ""
  | [_] => ""
  | parts => ofChars ('.' :: parts.getLastD [])

/-- Strip the extension (as computed by `extOf`) off a path. -/
def stripExtension (p : String) : String := strDropRight p (strLen (extOf p))

/-- Modelled from the spec (§4.1): the ordered source-extension priority
list used whenever a candidate path has no extension. -/
def extensionPriority : List String := [".js", ".jsx", ".ts", ".tsx"]

/-- Modelled from the spec (§4.1): the source→output extension map.
TypeScript variants map to their JavaScript-family counterpart; all other
extensions are identity. -/
def outputExt (e : String) : String :=
  if e = ".ts" then ".js" else if e = ".tsx" then ".jsx" else e

/-- Join a directory and a relative path with a forward slash. -/
def joinPath (dir rel : String) : String := dir ++ "/" ++ rel

/-- Remove a leading `"./"` from a specifier, if present. -/
def stripDotSlash (s : String) : String :=
  if strStartsWith s "./" then strDrop s 2 else s

/-- Directory part of a path (all `/`-segments but the last). -/
def dirname (p : String) : String :=
  ofChars (List.intercalate ['/'] ((splitChar '/' p).dropLast))

/-- Is the specifier relative or absolute (starts with `./`, `../` or `/`)? -/
def isRelative (s : String) : Bool :=
  strStartsWith s "./" || strStartsWith s "../" || strStartsWith s "/"

/-- Modelled from the spec (§4.7 `ExternalCheck`): a specifier matching an
absolute-URL scheme, e.g. `http:` or `https:`. -/
def hasUrlScheme (s : String) : Bool :=
  strStartsWith s "http:" || strStartsWith s "https:"

/-! ## Filesystem model -/

/-- Package metadata as read from a `package.json` (spec §3
`PackageDescriptor`; the override/browser map is not exercised by any
claim and is omitted). -/
structure PackageJson where
  name : String
  version : String
  main : String
deriving Repr, DecidableEq

/-- A read-only snapshot of the filesystem: the set of existing files, the
set of existing directories, and the parsed `package.json` found in each
directory that has one. -/
structure Fs where
  files : List String
  dirs : List String
  pkgJson : List (String × PackageJson)
deriving Repr, DecidableEq

/-- Existence probe for a file. -/
def Fs.fileExists (fs : Fs) (p : String) : Bool := memStr p fs.files

/-- Existence probe for a directory. -/
def Fs.dirExists (fs : Fs) (p : String) : Bool := memStr p fs.dirs

/-- The `package.json` descriptor at a directory, when present. -/
def Fs.pkgJsonAt (fs : Fs) (d : String) : Option PackageJson := lookupStr d fs.pkgJson

/-! ## Filesystem resolver (spec §4.5)

Modelled from the spec: the Filesystem Resolver source is not among the
provided sources. Steps follow §4.5: exact file with extension, then
extension probing, then directory handling (`package.json` `main`
indirection, else `index` fallback). -/

/-- A resolved file: its absolute path and whether resolution went through
a `package.json` `main` indirection. -/
structure ResolvedFile where
  absPath : String
  viaPkgMain : Bool
deriving Repr, DecidableEq

/-- Extension probing (§4.5 step 2): try `candidate ++ ext` for each
extension in priority order. -/
def tryExtensions (fs : Fs) (candidate : String) : List String → Option String
  | [] => none
  | e :: es =>
    if fs.fileExists (candidate ++ e) then some (candidate ++ e)
    else tryExtensions fs candidate es

/-- Steps 1–2 of §4.5: accept the candidate as-is when it carries an
extension and exists; otherwise probe the extension priority list. -/
def resolveSteps12 (fs : Fs) (candidate : String) : Option String :=
  if extOf candidate ≠ "" ∧ fs.fileExists candidate = true then some candidate
  else tryExtensions fs candidate extensionPriority

/-- Modelled from the spec (§4.5): the Filesystem Resolver. `fuel` bounds
the `package.json`-`main` recursion of step 3. -/
def fsResolve (fs : Fs) : Nat → String → Option ResolvedFile
  | 0, _ => none
  | fuel + 1, candidate =>
    match resolveSteps12 fs candidate with
    | some p => some ⟨p, false⟩
    | none =>
      if fs.dirExists candidate then
        match fs.pkgJsonAt candidate with
        | some pj =>
          if pj.main = "" then
            (resolveSteps12 fs (candidate ++ "/index")).map (⟨·, false⟩)
          else
            (fsResolve fs fuel (joinPath candidate (stripDotSlash pj.main))).map
              (fun r => { r with viaPkgMain := true })
        | none => (resolveSteps12 fs (candidate ++ "/index")).map (⟨·, false⟩)
      else none

/-- Try a list of candidate paths in order; the first one the filesystem
resolver accepts wins (spec §4.3 tie-break). -/
def firstResolve (fs : Fs) (fuel : Nat) : List String → Option ResolvedFile
  | [] => none
  | c :: cs =>
    match fsResolve fs fuel c with
    | some r => some r
    | none => firstResolve fs fuel cs

/-! ## Alias matcher (spec §4.2)

Modelled from the spec: the Alias Matcher source is not among the provided
sources. A key ending in the `$` sentinel matches only on full equality
with the marker stripped; a key without the marker matches as a literal
prefix, and the value is spliced in place of the matched prefix. First
matching entry in table order wins. -/

/-- Evaluate one alias entry against a specifier; `some r` is the
substituted specifier on a match. -/
def aliasEntryMatch (spec : String) (e : String × String) : Option String :=
  if listEndsWith e.1.data ['$'] then
    if spec = strDropRight e.1 1 then some e.2 else none
  else
    if strStartsWith spec e.1 then some (e.2 ++ strDrop spec (strLen e.1))
    else none

/-- Evaluate the whole alias table in insertion order; returns the matched
flag and the (possibly substituted) working specifier. -/
def applyAlias : List (String × String) → String → Bool × String
  | [], spec => (false, spec)
  | e :: es, spec =>
    match aliasEntryMatch spec e with
    | some r => (true, r)
    | none => applyAlias es spec

/-! ## TypeScript path matcher (spec §4.3)

Modelled from the spec: the TypeScript Path Matcher source is not among
the provided sources. A pattern with no wildcard requires full equality; a
pattern with one wildcard requires the specifier to share the fixed prefix
and suffix, capturing the middle. Candidates are the pattern's templates
with the capture substituted, resolved against `baseURL`; patterns with
two or more wildcards are invalid and treated as no-match. -/

/-- TypeScript paths configuration: `baseURL` plus the ordered `paths`
table (empty list models an absent table — the baseURL-only case). -/
structure TsPathsConf where
  baseURL : String
  paths : List (String × List String) := []
deriving Repr, DecidableEq

/-- Match one pattern against a specifier. `none` = no match;
`some none` = exact (wildcard-free) match; `some (some cap)` = wildcard
match capturing `cap`. -/
def patternMatch (pat spec : String) : Option (Option String) :=
  match splitChar '*' pat with
  | [_] => if spec = pat then some none else none
  | [pre, suf] =>
    let p := ofChars pre
    let s := ofChars suf
    if strStartsWith spec p ∧ strEndsWith (strDrop spec (strLen p)) s ∧
        strLen p + strLen s ≤ strLen spec then
      some (some (strDropRight (strDrop spec (strLen p)) (strLen s)))
    else none
  | _ => none

/-- Substitute a capture into a candidate template at its wildcard (a
template without a wildcard is taken literally). -/
def substCandidate (cap : Option String) (tmpl : String) : String :=
  match cap with
  | none => tmpl
  | some c =>
    match splitChar '*' tmpl with
    | [a, b] => ofChars a ++ c ++ ofChars b
    | _ => tmpl

/-- First pattern (in table order) matching the specifier, yielding its
substituted candidate templates. -/
def firstPatternMatch : List (String × List String) → String → Option (List String)
  | [], _ => none
  | (pat, tmpls) :: rest, spec =>
    match patternMatch pat spec with
    | some cap => some (tmpls.map (substCandidate cap))
    | none => firstPatternMatch rest spec

/-- The ordered absolute candidate list for a specifier (§4.3 steps 3–4):
substituted templates resolved against `baseURL`; with no `paths` table,
the single implicit baseURL-relative candidate. -/
def tsCandidates (conf : TsPathsConf) (spec : String) : List String :=
  match firstPatternMatch conf.paths spec with
  | some cands => cands.map (fun c => joinPath conf.baseURL (stripDotSlash c))
  | none => if conf.paths.isEmpty then [joinPath conf.baseURL (stripDotSlash spec)] else []

/-! ## Node-style package resolver (spec §4.6)

Modelled from the spec: the Node-Style Package Resolver source is not
among the provided sources. It splits the bare specifier into package name
and subpath, walks `node_modules` ancestry from the importer's directory
up to the project root, and delegates into the filesystem resolver. -/

/-- Split a bare specifier into `(packageName, subpath)`; a leading
`@scope/` segment belongs to the package name. -/
def splitPkg (spec : String) : String × String :=
  let parts := (splitChar '/' spec).map ofChars
  if strStartsWith spec "@" then
    match parts with
    | scope :: nm :: rest => (scope ++ "/" ++ nm, ofChars (List.intercalate ['/'] (rest.map chars)))
    | _ => (spec, "")
  else
    match parts with
    | nm :: rest => (nm, ofChars (List.intercalate ['/'] (rest.map chars)))
    | [] => (spec, "")

/-- The importer's directory followed by its parents, stopping at the
project root (or when the path runs out); `fuel` bounds the walk. -/
def ancestors : Nat → String → String → List String
  | 0, d, _ => [d]
  | fuel + 1, d, stop => if d = stop ∨ d = "" then [d] else d :: ancestors fuel (dirname d) stop

/-- First ancestor directory whose `node_modules` contains the package. -/
def findPkgDir (fs : Fs) (pkgName : String) : List String → Option String
  | [] => none
  | d :: ds =>
    let pd := d ++ "/node_modules/" ++ pkgName
    if fs.dirExists pd then some pd else findPkgDir fs pkgName ds

/-! ## Resolution orchestrator (spec §4.7)

Modelled from the spec: the Resolution Orchestrator source is not among
the provided sources. `Start → ExternalCheck → AliasCheck → TsPathCheck →
(RelativeResolve | PackageResolve) → EmitMapping`. -/

/-- Fuel used for the bounded recursions (`package.json`-`main` chains and
the ancestor walk); any real project is far below this bound. -/
def resolverFuel : Nat := 16

/-- The request to the public entry point (spec §6). -/
structure Request where
  homeDir : String := ""
  filePath : String := ""
  target : String
  -- named `alias` in the source; `alias` is a Lean keyword
  aliasMap : List (String × String) := []
  tsPaths : Option TsPathsConf := none
deriving Repr, DecidableEq

/-- The outcome of the pipeline before `EmitMapping`: rewrite flags, the
resolved file, the resolution root, the owning package (when resolution
crossed into a dependency), and the base string from which the naive
guess at the original specifier is formed. -/
structure Core where
  origTarget : String
  aliasFlag : Bool
  tsFlag : Bool
  file : ResolvedFile
  root : String
  pkg : Option PackageJson
  crossedPkg : Bool
  guessBase : String
deriving Repr, DecidableEq

/-- The resolution result (spec §3 `ResolvedModule`). -/
structure ResolvedModule where
  isExternal : Bool := false
  absPath : Option String := none
  extension : Option String := none
  fuseBoxPath : Option String := none
  forcedStatement : Option String := none
  pkg : Option PackageJson := none
deriving Repr, DecidableEq

/-- Path relative to the resolution root: strip the root (plus `/`) off
the front of the absolute path. -/
def relToRoot (root p : String) : String :=
  if strStartsWith p (root ++ "/") then strDrop p (strLen root + 1) else p

/-- Modelled from the spec (§9, open question): the naive relative guess
at the original specifier — the specifier with any `./` stripped and, when
it has no extension, the output-mapped extension appended. -/
def naiveGuess (base mappedExt : String) : String :=
  let s := stripDotSlash base
  if extOf s = "" then s ++ mappedExt else s

/-- Bundle-relative path of a core outcome (root-relative, with the
extension mapped through the output table). -/
def coreFbp (core : Core) : String :=
  let rel := relToRoot core.root core.file.absPath
  stripExtension rel ++ outputExt (extOf rel)

/-- Source extension of a core outcome. -/
def coreSrcExt (core : Core) : String := extOf (relToRoot core.root core.file.absPath)

/-- Did resolution cross a package boundary (into `node_modules`, or
through a `package.json` `main` indirection)? -/
def coreCrossed (core : Core) : Bool := core.crossedPkg || core.file.viaPkgMain

/-- The forced-statement condition of §4.7 `EmitMapping`: alias rewrite,
ts-path rewrite, source/output extension mismatch, or a crossed package
boundary whose canonical path differs from the naive guess. -/
def forcedFlag (core : Core) : Bool :=
  core.aliasFlag || core.tsFlag || (outputExt (coreSrcExt core) != coreSrcExt core) ||
    (coreCrossed core && (coreFbp core != naiveGuess core.guessBase (outputExt (coreSrcExt core))))

/-- `EmitMapping` (spec §4.7): compute `fuseBoxPath`, `extension`, and
`forcedStatement` (`"~/" ++ fuseBoxPath` iff the forced condition holds). -/
def emit (core : Core) : ResolvedModule :=
  { isExternal := false
    absPath := some core.file.absPath
    extension := some (coreSrcExt core)
    fuseBoxPath := some (coreFbp core)
    forcedStatement := if forcedFlag core then some ("~/" ++ coreFbp core) else none
    pkg := core.pkg }

/-- Resolve a relative/absolute working specifier against the home
directory. -/
def joinRel (homeDir t : String) : String :=
  if strStartsWith t "/" then t else joinPath homeDir (stripDotSlash t)

/-- The package-main path resolved for a package without a subpath:
`main` when declared non-empty, else the `index` fallback. -/
def pkgMainRel (pj : PackageJson) : String :=
  if pj.main = "" then "index" else stripDotSlash pj.main

/-- `PackageResolve` (spec §4.6): resolve a bare working specifier into a
dependency package; the resolution root becomes the package directory. -/
def nodeResolve (fs : Fs) (importerDir homeDir t origTarget : String) (aliasFlag : Bool) :
    Option Core :=
  match findPkgDir fs (splitPkg t).1 (ancestors resolverFuel importerDir homeDir) with
  | none => none
  | some pkgDir =>
    if (splitPkg t).2 ≠ "" then
      (fsResolve fs resolverFuel (joinPath pkgDir (splitPkg t).2)).map fun f =>
        { origTarget, aliasFlag, tsFlag := false, file := f, root := pkgDir,
          pkg := fs.pkgJsonAt pkgDir, crossedPkg := true, guessBase := (splitPkg t).2 }
    else
      match fs.pkgJsonAt pkgDir with
      | some pj =>
        (fsResolve fs resolverFuel (joinPath pkgDir (pkgMainRel pj))).map fun f =>
          { origTarget, aliasFlag, tsFlag := false, file := f, root := pkgDir,
            pkg := some pj, crossedPkg := true, guessBase := pkgMainRel pj }
      | none =>
        (fsResolve fs resolverFuel (joinPath pkgDir "index")).map fun f =>
          { origTarget, aliasFlag, tsFlag := false, file := f, root := pkgDir,
            pkg := none, crossedPkg := true, guessBase := "index" }

/-- The working specifier after `AliasCheck`. -/
def workingTarget (req : Request) : String := (applyAlias req.aliasMap req.target).2

/-- The alias rewrite flag raised by `AliasCheck`. -/
def workingAliasFlag (req : Request) : Bool := (applyAlias req.aliasMap req.target).1

/-- `TsPathCheck` (spec §4.7): runs only when a `typescriptPaths`
configuration is present; the candidates are tried through the filesystem
resolver in order and a success raises the ts rewrite flag. -/
def resolveViaTs (fs : Fs) (req : Request) : Option Core :=
  match req.tsPaths with
  | some conf =>
    (firstResolve fs resolverFuel (tsCandidates conf (workingTarget req))).map fun f =>
      { origTarget := req.target, aliasFlag := workingAliasFlag req, tsFlag := true,
        file := f, root := req.homeDir, pkg := none, crossedPkg := false,
        guessBase := workingTarget req }
  | none => none

/-- `RelativeResolve` / `PackageResolve` dispatch (spec §4.7): a
relative/absolute working specifier goes straight to the filesystem
resolver; a bare one goes to the node-style package resolver. -/
def resolvePlain (fs : Fs) (req : Request) : Option Core :=
  if isRelative (workingTarget req) then
    (fsResolve fs resolverFuel (joinRel req.homeDir (workingTarget req))).map fun f =>
      { origTarget := req.target, aliasFlag := workingAliasFlag req, tsFlag := false,
        file := f, root := req.homeDir, pkg := none, crossedPkg := false,
        guessBase := workingTarget req }
  else
    nodeResolve fs (dirname req.filePath) req.homeDir (workingTarget req) req.target
      (workingAliasFlag req)

/-- The pipeline up to (not including) `EmitMapping`: alias check, ts-path
check, then relative or package resolution. -/
def resolveCore (fs : Fs) (req : Request) : Option Core :=
  match resolveViaTs fs req with
  | some c => some c
  | none => resolvePlain fs req

/-- Modelled from the spec (§4.7, §6): the public entry point
`resolveModule`. An absolute-URL specifier short-circuits to
`{ isExternal := true }`; otherwise the pipeline result goes through
`EmitMapping`; `none` is the module-not-found outcome. -/
def resolveModule (fs : Fs) (req : Request) : Option ResolvedModule :=
  if hasUrlScheme req.target then some { isExternal := true }
  else (resolveCore fs req).map emit

/-! ## Concrete fixture mirroring `tests/cases/src1` -/

/-- Home directory of the `src1` test fixture. -/
def src1Home : String := "/proj/cases/src1"

/-- Filesystem snapshot of the `src1` test fixture: `some1/index.js`,
`some2/index.jsx`, `some3/index.ts`, `some4/index.tsx`, and `some5` with a
`package.json` whose `main` is `foo.js`. -/
def src1Fs : Fs :=
  { files := [src1Home ++ "/foo.js", src1Home ++ "/some1/index.js",
              src1Home ++ "/some2/index.jsx", src1Home ++ "/some3/index.ts",
              src1Home ++ "/some4/index.tsx", src1Home ++ "/some5/foo.js"]
    dirs := [src1Home, src1Home ++ "/some1", src1Home ++ "/some2", src1Home ++ "/some3",
             src1Home ++ "/some4", src1Home ++ "/some5"]
    pkgJson := [(src1Home ++ "/some5", { name := "some5", version := "1.0.0", main := "foo.js" })] }

/-! ## `TypescriptConfig.normalizeTSPaths` (src/core/TypescriptConfig.ts)

Embedded from the source, lines 143–251. `context.warning` calls are
collected into a warning list; `log.echoInfo` output is dropped.
`Utils.tsKeyPath2RegExp` is not among the provided sources, so the
regular-expression source built from a key is abstracted as a parameter
`re : String → String`; the claims depend only on which keys contribute. -/

/-- A value of one `compilerOptions.paths` entry: an array of lookup
strings, or a non-array value (with its string rendering and its
JavaScript truthiness, used by the `options.paths[k]` checks). -/
inductive TsPathsEntryVal where
  | arr (l : List String)
  | other (asString : String) (truthy : Bool)
deriving Repr, DecidableEq

/-- `/\*{2,}/g.test(s)`: does the string contain two consecutive stars? -/
def hasMultiStar (s : String) : Bool := listHasInfix ['*', '*'] s.data

/-- Warning for a pattern key with two or more stars (line 165). -/
def warnKeyStars (key : String) : String :=
  s!"Cannot resolve invalid TS path \"{key}\". A TS path can have at most one star"

/-- Warning for a non-array candidate list (lines 170–172). -/
def warnNonArray (key lookupArray : String) : String :=
  s!"Cannot resolve invalid TS path \"{key}\". Expected an array of files or directory names but instead got \"{lookupArray}\""

/-- Warning for a lookup path with two or more stars (lines 180–182). -/
def warnLookupStars (key lookupPath : String) : String :=
  s!"Cannot resolve invalid TS path \"{key}\". A lookup file/dir \"{lookupPath}\" can have at most one star"

/-- Warning for a `baseUrl` outside `homeDir` (lines 152–154). -/
def warnBaseUrl : String :=
  "Automatic aliasing cannot be applied because the \"baseUrl\" path in your tsconfig file is outside of \"homeDir\""

/-- Replace every backslash with a forward slash
(`String(lookupArray[i]).replace(/\\/g, "/")`, line 177). -/
def backslashToSlash (s : String) : String :=
  ⟨s.data.map (fun ch => if ch == '\\' then '/' else ch)⟩

/-- The inner candidate loop (lines 176–188): returns the
`normalizedLookup` list and any warning. A lookup path with two or more
stars warns and `break`s — later candidates of this key are dropped while
earlier ones are kept. -/
def processLookups (key : String) : List String → List String × List String
  | [] => ([], [])
  | l :: ls =>
    let lookupPath := backslashToSlash l
    if hasMultiStar lookupPath then ([], [warnLookupStars key lookupPath])
    else
      let r := processLookups key ls
      (lookupPath :: r.1, r.2)

/-- The outer `for (let key in options.paths)` loop (lines 159–195):
returns `(normalizedPaths, globalPathsMatch, warnings)`. A key with two or
more stars, or a non-array candidate list, warns and `break`s — the
remaining entries are not processed. A key whose `normalizedLookup` ends
up non-empty is recorded in `normalizedPaths` and contributes its
regular-expression source (lines 190–194). -/
def processUserPaths (re : String → String) :
    List (String × TsPathsEntryVal) → List (String × List String) × List String × List String
  | [] => ([], [], [])
  | (key, val) :: rest =>
    if hasMultiStar key then ([], [], [warnKeyStars key])
    else
      match val with
      | .other asString _ => ([], [], [warnNonArray key asString])
      | .arr lookupArray =>
        let inner := processLookups key lookupArray
        let r := processUserPaths re rest
        if inner.1.isEmpty then (r.1, r.2.1, inner.2 ++ r.2.2)
        else ((key, inner.1) :: r.1, re key :: r.2.1, inner.2 ++ r.2.2)

/-- One entry of `fs.readdirSync(options.baseUrl)`, together with the
`ts.sys.directoryExists` / `ts.sys.fileExists` answers for it. -/
structure DirEntry where
  name : String
  isDirectory : Bool
  isFile : Bool
deriving Repr, DecidableEq

/-- JavaScript truthiness of `map[k]` for the working paths object:
arrays are truthy, non-arrays carry their own truthiness, and a missing
property is falsy. -/
def truthyAt (m : List (String × TsPathsEntryVal)) (k : String) : Bool :=
  match lookupStr k m with
  | some (.arr _) => true
  | some (.other _ t) => t
  | none => false

/-- The automatic-alias scan of the `baseUrl` directory (lines 200–240),
threading the mutable `options.paths` object `m`: dot-entries are skipped;
a subdirectory adds `name/*`; an eligible file adds its extensionless
name; entries already truthy in `m` are skipped. Returns the mutated map
and the regular-expression sources pushed, in order. -/
def scanBaseUrl (re : String → String) (allowJs : Bool) :
    List DirEntry → List (String × TsPathsEntryVal) →
    List (String × TsPathsEntryVal) × List String
  | [], m => (m, [])
  | e :: es, m =>
    if strStartsWith e.name "." then scanBaseUrl re allowJs es m
    else if e.isDirectory then
      let dirKey := e.name ++ "/*"
      if truthyAt m dirKey then scanBaseUrl re allowJs es m
      else
        let r := scanBaseUrl re allowJs es (m ++ [(dirKey, .arr ["./" ++ e.name ++ "/*"])])
        (r.1, re dirKey :: r.2)
    else if e.isFile then
      let extension := extOf e.name
      if extension = "" ∨ (allowJs ∧ (extension = ".js" ∨ extension = ".jsx")) ∨
          extension = ".ts" ∨ extension = ".tsx" then
        let nm := if extension ≠ "" then strDropRight e.name (strLen extension) else e.name
        if truthyAt m nm then scanBaseUrl re allowJs es m
        else
          let r := scanBaseUrl re allowJs es (m ++ [(nm, .arr ["./" ++ nm])])
          (r.1, re nm :: r.2)
      else scanBaseUrl re allowJs es m
    else scanBaseUrl re allowJs es m

/-- The compiler options consumed by `normalizeTSPaths`: `baseUrl`,
`paths` (`none` models `null`/`undefined`; the function is only reached
with `paths` an object or null), and `allowJs`. -/
structure TSOptions where
  baseUrl : String
  paths : Option (List (String × TsPathsEntryVal)) := none
  allowJs : Bool := false
deriving Repr, DecidableEq

/-- Observable outcome of `normalizeTSPaths`: the final
`compilerOptions.paths` (`none` when the early return left it untouched),
the warnings emitted, the collected `globalPathsMatch` sources, whether
`context.tsPathsRegExp` was installed (line 244: only when
`globalPathsMatch` is non-empty), and whether the `baseUrl`-outside-
`homeDir` early return was taken. -/
structure NormalizeResult where
  paths : Option (List (String × List String))
  warnings : List String
  regexpSources : List String
  tsPathsRegExpSet : Bool
  earlyReturn : Bool
deriving Repr, DecidableEq

/-- Embedding of `TypescriptConfig.normalizeTSPaths` (lines 143–251).
`homeDir` stands for `ensureAbsolutePath(ensureFuseBoxPath(context.homeDir))`
and the guard is JavaScript substring containment
(`options.baseUrl.includes(absHomeDir)`). After the user loop the scan
mutates the working paths object, and line 242 overwrites
`options.paths` with `normalizedPaths`. -/
def normalizeTSPaths (re : String → String) (homeDir : String) (opts : TSOptions)
    (listing : List DirEntry) : NormalizeResult :=
  if !(strIncludes opts.baseUrl homeDir) then
    { paths := none, warnings := [warnBaseUrl], regexpSources := [],
      tsPathsRegExpSet := false, earlyReturn := true }
  else
    let user := processUserPaths re (opts.paths.getD [])
    let scanned := scanBaseUrl re opts.allowJs listing (opts.paths.getD [])
    let gpm := user.2.1 ++ scanned.2
    { paths := some user.1, warnings := user.2.2, regexpSources := gpm,
      tsPathsRegExpSet := !gpm.isEmpty, earlyReturn := false }

/-! ## `SassPluginClass.transform` render callback
(src/plugins/stylesheet/SassPlugin.ts, lines 165–183) -/

/-- The error object node-sass passes to the render callback. -/
structure SassError where
  message : String
  file : String
  line : Nat
  column : Nat
deriving Repr, DecidableEq

/-- The success object node-sass passes to the render callback. -/
structure SassResult where
  css : String
  map : Option String
deriving Repr, DecidableEq

/-- The mutable state of the `File` the callback touches. -/
structure SassFileState where
  absPath : String
  contents : String
  errors : List String
  sourceMap : Option String
deriving Repr, DecidableEq

/-- Whether the promise around the render call resolved or rejected. -/
inductive PromiseOutcome where
  | resolved
  | rejected
deriving Repr, DecidableEq

/-- The error text built at line 170:
`err.message ++ "\n      at " ++ errorFile ++ ":" ++ line ++ ":" ++ column`. -/
def formatSassError (e : SassError) (errorFile : String) : String :=
  let m := e.message
  let l := e.line
  let c := e.column
  s!"{m}\n      at {errorFile}:{l}:{c}"

/-- The `err.file === "stdin" ? file.absPath : err.file` choice (line 168). -/
def sassErrorFile (e : SassError) (f : SassFileState) : String :=
  if e.file = "stdin" then f.absPath else e.file

/-- Embedding of the callback passed to `sass.compiler.render`
(lines 166–182): on error the file's contents become empty, the formatted
error is added via `addError`, and the promise resolves; on success the
source map and compiled css are stored (the second component records
whether the static cache was written) and the promise resolves. -/
def sassRenderCallback (useCache : Bool) (f : SassFileState)
    (err : Option SassError) (result : SassResult) :
    SassFileState × Bool × PromiseOutcome :=
  match err with
  | some e =>
    ({ f with contents := "",
              errors := f.errors ++ [formatSassError e (sassErrorFile e f)] },
     false, .resolved)
  | none =>
    ({ f with sourceMap := result.map, contents := result.css }, useCache, .resolved)

/-! ## Package metadata cache (spec §4.4)

Modelled from the spec: the Package Metadata Cache source is not among the
provided sources. `get(absoluteDir)` reads and parses the `package.json`
at that directory once; subsequent calls for the same directory return the
cached value without re-reading. -/

/-- One filesystem read of the `package.json` at a directory. -/
def readPackageJson (fs : Fs) (dir : String) : Option PackageJson := fs.pkgJsonAt dir

/-- The package-metadata cache, keyed by absolute directory. -/
structure PkgCache where
  entries : List (String × Option PackageJson)
deriving Repr, DecidableEq

/-- The empty cache at the start of a build. -/
def PkgCache.empty : PkgCache := ⟨[]⟩

/-- The keys already populated in the cache. -/
def PkgCache.keys (c : PkgCache) : List String := c.entries.map Prod.fst

/-- Cache lookup-or-populate: returns the descriptor, the updated cache,
and the number of filesystem reads this call performed (`1` on a miss,
`0` on a hit). -/
def cacheGet (fs : Fs) (c : PkgCache) (d : String) :
    Option PackageJson × PkgCache × Nat :=
  match lookupStr d c.entries with
  | some r => (r, c, 0)
  | none =>
    let r := readPackageJson fs d
    (r, ⟨(d, r) :: c.entries⟩, 1)

/-- Total number of filesystem reads performed for directory `d` while a
build serves the sequence `ds` of package-directory lookups through the
cache. -/
def readsFor (fs : Fs) (d : String) : PkgCache → List String → Nat
  | _, [] => 0
  | c, x :: xs =>
    (if x = d then (cacheGet fs c x).2.2 else 0) + readsFor fs d (cacheGet fs c x).2.1 xs

/-! ## Concrete fixtures used by the witnesses -/

/-- Request of the test `Should not Replace alias and have forcedStatement
false`: alias `ololo$ → ./some1`, target `./some1`. -/
def reqSome1Alias : Request :=
  { homeDir := src1Home, filePath := src1Home ++ "/foo.js", target := "./some1",
    aliasMap := [("ololo$", "./some1")] }

/-- Request of the test `Should replace alias 2`: alias `ololo$ → ./some1`,
target `ololo`. -/
def reqOloloAlias : Request := { reqSome1Alias with target := "ololo" }

/-- Request of the test `Should resolve with package override`. -/
def reqSome5 : Request :=
  { homeDir := src1Home, filePath := src1Home ++ "/foo.js", target := "./some5" }

/-- Request of the test `Should resolve index.ts`. -/
def reqSome3 : Request :=
  { homeDir := src1Home, filePath := src1Home ++ "/foo.js", target := "./some3" }

/-- Request of the test `Should resolve index.tsx`. -/
def reqSome4 : Request :=
  { homeDir := src1Home, filePath := src1Home ++ "/foo.js", target := "./some4" }

/-- The pipeline outcome of `reqSome1Alias` (checked by the witnesses). -/
def coreSome1 : Core :=
  { origTarget := "./some1", aliasFlag := false, tsFlag := false,
    file := ⟨src1Home ++ "/some1/index.js", false⟩, root := src1Home,
    pkg := none, crossedPkg := false, guessBase := "./some1" }

/-- Filesystem for the claim scenario `paths: {"@app/*": ["a/*", "b/*"]}`
where only `b/AnotherFile` exists on disk. -/
def abFs : Fs :=
  { files := ["/h/b/AnotherFile.js"], dirs := ["/h", "/h/a", "/h/b"], pkgJson := [] }

/-- Request for that scenario: resolving `@app/AnotherFile`. -/
def abReq : Request :=
  { homeDir := "/h", filePath := "/h/x.ts", target := "@app/AnotherFile",
    tsPaths := some { baseURL := "/h", paths := [("@app/*", ["a/*", "b/*"])] } }

/-- A concrete regular-expression-source tag for witnesses. -/
def reTag (k : String) : String := "(" ++ k ++ ")"

/-- Compiler options with an invalid first `paths` key followed by a valid
entry (used to settle the invalid-entry claim). -/
def badKeyOpts : TSOptions :=
  { baseUrl := "/home/proj",
    paths := some [("a**", .arr ["./a/*"]), ("b/*", .arr ["./b/*"])] }

/-- Compiler options with one valid user path entry. -/
def oneUserPathOpts : TSOptions :=
  { baseUrl := "/home/proj/src", paths := some [("@app/*", .arr ["./app/*"])] }

/-- A `baseUrl` directory listing with one subdirectory, one eligible
TypeScript file, one dot-entry and one ineligible file. -/
def sampleListing : List DirEntry :=
  [{ name := "components", isDirectory := true, isFile := false },
   { name := "Moi.ts", isDirectory := false, isFile := true },
   { name := ".git", isDirectory := true, isFile := false },
   { name := "readme.md", isDirectory := false, isFile := true }]

/-! ## Helper lemmas -/

theorem string_data_append (s t : String) : (s ++ t).data = s.data ++ t.data := by
  cases s
  cases t
  rfl

theorem strAppend_ne_self (s t : String) (h : t ≠ "") : s ++ t ≠ s := by
  intro he
  apply h
  have hd : s.data ++ t.data = s.data := by
    rw [← string_data_append, he]
  have hlen := congrArg List.length hd
  rw [List.length_append] at hlen
  have hz : t.data.length = 0 := by omega
  cases t
  simp only [List.length_eq_zero] at hz
  simp [hz]

theorem tryExtensions_mem (fs : Fs) (c : String) :
    ∀ es p, tryExtensions fs c es = some p → fs.fileExists p = true := by
  intro es
  induction es with
  | nil => intro p h; simp [tryExtensions] at h
  | cons e es ih =>
    intro p h
    cases hf : fs.fileExists (c ++ e) with
    | true =>
      rw [tryExtensions, if_pos hf] at h
      injection h with h
      subst h
      exact hf
    | false =>
      rw [tryExtensions, if_neg (by simp [hf])] at h
      exact ih p h

theorem resolveSteps12_mem (fs : Fs) (c p : String) (h : resolveSteps12 fs c = some p) :
    fs.fileExists p = true := by
  unfold resolveSteps12 at h
  split at h
  · next hcond =>
    injection h with h
    subst h
    exact hcond.2
  · exact tryExtensions_mem fs c _ p h

theorem fsResolve_mem (fs : Fs) :
    ∀ fuel c r, fsResolve fs fuel c = some r → fs.fileExists r.absPath = true := by
  intro fuel
  induction fuel with
  | zero => intro c r h; simp [fsResolve] at h
  | succ n ih =>
    intro c r h
    unfold fsResolve at h
    split at h
    · rename_i p hp
      injection h with h
      subst h
      exact resolveSteps12_mem fs c p hp
    · split at h
      · split at h
        · rename_i pj hpj
          split at h
          · cases hi : resolveSteps12 fs (c ++ "/index") with
            | some q =>
              rw [hi] at h
              simp only [Option.map_some'] at h
              injection h with h
              rw [← h]
              exact resolveSteps12_mem fs _ q hi
            | none => rw [hi] at h; simp at h
          · cases hr : fsResolve fs n (joinPath c (stripDotSlash pj.main)) with
            | some r' =>
              rw [hr] at h
              simp only [Option.map_some'] at h
              have hr' := ih _ r' hr
              injection h with h
              rw [← h]
              exact hr'
            | none => rw [hr] at h; simp at h
        · cases hi : resolveSteps12 fs (c ++ "/index") with
          | some q =>
            rw [hi] at h
            simp only [Option.map_some'] at h
            injection h with h
            rw [← h]
            exact resolveSteps12_mem fs _ q hi
          | none => rw [hi] at h; simp at h
      · exact absurd h (by simp)

theorem firstResolve_mem (fs : Fs) (fuel : Nat) :
    ∀ cs r, firstResolve fs fuel cs = some r → fs.fileExists r.absPath = true := by
  intro cs
  induction cs with
  | nil => intro r h; simp [firstResolve] at h
  | cons c cs ih =>
    intro r h
    unfold firstResolve at h
    cases hc : fsResolve fs fuel c with
    | some r' =>
      rw [hc] at h
      injection h with h
      rw [← h]
      exact fsResolve_mem fs fuel c r' hc
    | none =>
      rw [hc] at h
      exact ih r h

theorem nodeResolve_mem (fs : Fs) (idir hdir t ot : String) (af : Bool) (core : Core)
    (h : nodeResolve fs idir hdir t ot af = some core) :
    fs.fileExists core.file.absPath = true := by
  unfold nodeResolve at h
  split at h
  · exact absurd h (by simp)
  · rename_i pkgDir hfind
    split at h
    · cases hr : fsResolve fs resolverFuel (joinPath pkgDir (splitPkg t).2) with
      | some f =>
        rw [hr] at h
        simp only [Option.map_some'] at h
        injection h with h
        rw [← h]
        exact fsResolve_mem fs _ _ f hr
      | none => rw [hr] at h; simp at h
    · split at h
      · rename_i pj hpj
        cases hr : fsResolve fs resolverFuel (joinPath pkgDir (pkgMainRel pj)) with
        | some f =>
          rw [hr] at h
          simp only [Option.map_some'] at h
          injection h with h
          rw [← h]
          exact fsResolve_mem fs _ _ f hr
        | none => rw [hr] at h; simp at h
      · cases hr : fsResolve fs resolverFuel (joinPath pkgDir "index") with
        | some f =>
          rw [hr] at h
          simp only [Option.map_some'] at h
          injection h with h
          rw [← h]
          exact fsResolve_mem fs _ _ f hr
        | none => rw [hr] at h; simp at h

theorem resolveViaTs_mem (fs : Fs) (req : Request) (core : Core)
    (h : resolveViaTs fs req = some core) : fs.fileExists core.file.absPath = true := by
  unfold resolveViaTs at h
  split at h
  · rename_i conf hconf
    cases hr : firstResolve fs resolverFuel (tsCandidates conf (workingTarget req)) with
    | some f =>
      rw [hr] at h
      simp only [Option.map_some'] at h
      injection h with h
      rw [← h]
      exact firstResolve_mem fs _ _ f hr
    | none => rw [hr] at h; simp at h
  · exact absurd h (by simp)

theorem resolvePlain_mem (fs : Fs) (req : Request) (core : Core)
    (h : resolvePlain fs req = some core) : fs.fileExists core.file.absPath = true := by
  unfold resolvePlain at h
  split at h
  · cases hr : fsResolve fs resolverFuel (joinRel req.homeDir (workingTarget req)) with
    | some f =>
      rw [hr] at h
      simp only [Option.map_some'] at h
      injection h with h
      rw [← h]
      exact fsResolve_mem fs _ _ f hr
    | none => rw [hr] at h; simp at h
  · exact nodeResolve_mem fs _ _ _ _ _ core h

theorem resolveCore_mem (fs : Fs) (req : Request) (core : Core)
    (h : resolveCore fs req = some core) : fs.fileExists core.file.absPath = true := by
  unfold resolveCore at h
  split at h
  · rename_i c hc
    injection h with h
    rw [← h]
    exact resolveViaTs_mem fs req c hc
  · exact resolvePlain_mem fs req core h

theorem emit_forcedStatement_none_iff (core : Core) :
    (emit core).forcedStatement = none ↔ forcedFlag core = false := by
  unfold emit
  cases h : forcedFlag core <;> simp [h]

theorem forcedFlag_false_iff (core : Core) :
    forcedFlag core = false ↔
      (core.aliasFlag = false ∧ core.tsFlag = false ∧
       outputExt (coreSrcExt core) = coreSrcExt core ∧
       (coreCrossed core = true →
         coreFbp core = naiveGuess core.guessBase (outputExt (coreSrcExt core)))) := by
  unfold forcedFlag
  cases h : coreCrossed core <;>
    simp [h, Bool.or_eq_false_iff, bne_eq_false_iff_eq, and_assoc]

/-! ## Claim theorems -/

/-- C6: for every specifier matching an absolute-URL scheme, `resolve`
terminates immediately with a result equal to `{isExternal: true}` and no
other fields populated; the result is the same for every filesystem state
and request configuration, so no alias/ts-path/filesystem processing is
performed. -/
theorem external_url_short_circuits (fs : Fs) (req : Request)
    (h : hasUrlScheme req.target = true) :
    resolveModule fs req = some { isExternal := true } := by
  unfold resolveModule
  rw [h]
  rfl

/-- Witness for C6: the `Should resolve external target` scenario. -/
theorem external_url_short_circuits_witness :
    hasUrlScheme "http://foo.com/some.js" = true ∧
    resolveModule src1Fs { target := "http://foo.com/some.js" } =
      some { isExternal := true } :=
  ⟨by decide, external_url_short_circuits src1Fs { target := "http://foo.com/some.js" } (by decide)⟩

/-- C10: for every Sass compilation error, the render callback of
`SassPluginClass.transform` resolves the promise rather than rejecting it,
records the error message (with file, line and column) on the file, and
sets the file's contents to the empty string. -/
theorem sass_error_resolves_promise (u : Bool) (f : SassFileState) (e : SassError)
    (r : SassResult) :
    sassRenderCallback u f (some e) r =
      ({ f with contents := "",
                errors := f.errors ++ [formatSassError e (sassErrorFile e f)] },
       false, PromiseOutcome.resolved) := rfl

/-- C1: `forcedStatement` is `none` iff none of the rewrite conditions
hold (alias rewrite, ts-path rewrite, source/output extension mismatch, or
a crossed package boundary whose canonical path differs from the naive
guess); when any holds it equals `"~/" ++ fuseBoxPath` exactly. In
particular, alias `ololo$ → ./some1` with target `./some1` yields a falsy
`forcedStatement`, target `ololo` yields `"~/some1/index.js"`, and the
package-override target `./some5` yields `"~/some5/foo.js"`. -/
theorem forcedStatement_iff_rewrite :
    (∀ fs req core, resolveCore fs req = some core →
      (((emit core).forcedStatement = none ↔
        (core.aliasFlag = false ∧ core.tsFlag = false ∧
         outputExt (coreSrcExt core) = coreSrcExt core ∧
         (coreCrossed core = true →
           coreFbp core = naiveGuess core.guessBase (outputExt (coreSrcExt core))))) ∧
       ((emit core).forcedStatement ≠ none →
         (emit core).forcedStatement = some ("~/" ++ coreFbp core) ∧
         (emit core).fuseBoxPath = some (coreFbp core))))
    ∧ resolveModule src1Fs reqSome1Alias =
        some { isExternal := false, absPath := some (src1Home ++ "/some1/index.js"),
               extension := some ".js", fuseBoxPath := some "some1/index.js",
               forcedStatement := none, pkg := none }
    ∧ resolveModule src1Fs reqOloloAlias =
        some { isExternal := false, absPath := some (src1Home ++ "/some1/index.js"),
               extension := some ".js", fuseBoxPath := some "some1/index.js",
               forcedStatement := some "~/some1/index.js", pkg := none }
    ∧ resolveModule src1Fs reqSome5 =
        some { isExternal := false, absPath := some (src1Home ++ "/some5/foo.js"),
               extension := some ".js", fuseBoxPath := some "some5/foo.js",
               forcedStatement := some "~/some5/foo.js", pkg := none } := by
  refine ⟨?_, by decide, by decide, by decide⟩
  intro fs req core _
  constructor
  · rw [emit_forcedStatement_none_iff]
    exact forcedFlag_false_iff core
  · intro hne
    cases h : forcedFlag core with
    | false =>
      exact absurd ((emit_forcedStatement_none_iff core).mpr h) hne
    | true =>
      constructor
      · unfold emit
        simp [h]
      · rfl

/-- Witness for C1: the first conjunct applied to the concrete alias
request of the `Should not Replace alias` test. -/
theorem forcedStatement_iff_rewrite_witness :
    (emit coreSome1).forcedStatement = none :=
  ((forcedStatement_iff_rewrite.1 src1Fs reqSome1Alias coreSome1 (by decide)).1).mpr (by decide)

/-- C3: every successful resolution returns an `absPath` that exists on
disk, an `extension` field carrying the source extension of that path, and
a `fuseBoxPath` whose extension is drawn from the output mapping table;
extensions other than the TypeScript variants map to themselves.
Concretely, `./some4` over only `index.tsx` returns extension `.tsx` and
`fuseBoxPath` `some4/index.jsx`, and `./some3` over only `index.ts`
returns `.ts` and `some3/index.js`. -/
theorem fuseBoxPath_extension_mapped :
    (∀ fs req core, resolveCore fs req = some core →
       fs.fileExists core.file.absPath = true ∧
       (emit core).extension = some (coreSrcExt core) ∧
       (emit core).fuseBoxPath =
         some (stripExtension (relToRoot core.root core.file.absPath) ++
               outputExt (coreSrcExt core)))
    ∧ (∀ e, e ≠ ".ts" → e ≠ ".tsx" → outputExt e = e)
    ∧ resolveModule src1Fs reqSome4 =
        some { isExternal := false, absPath := some (src1Home ++ "/some4/index.tsx"),
               extension := some ".tsx", fuseBoxPath := some "some4/index.jsx",
               forcedStatement := some "~/some4/index.jsx", pkg := none }
    ∧ resolveModule src1Fs reqSome3 =
        some { isExternal := false, absPath := some (src1Home ++ "/some3/index.ts"),
               extension := some ".ts", fuseBoxPath := some "some3/index.js",
               forcedStatement := some "~/some3/index.js", pkg := none } := by
  refine ⟨?_, ?_, by decide, by decide⟩
  · intro fs req core h
    exact ⟨resolveCore_mem fs req core h, rfl, rfl⟩
  · intro e h1 h2
    unfold outputExt
    rw [if_neg h1, if_neg h2]

/-- Witness for C3: the first conjunct applied to the `./some1` request. -/
theorem fuseBoxPath_extension_mapped_witness :
    src1Fs.fileExists coreSome1.file.absPath = true ∧
    (emit coreSome1).extension = some (coreSrcExt coreSome1) :=
  let h := fuseBoxPath_extension_mapped.1 src1Fs reqSome1Alias coreSome1 (by decide)
  ⟨h.1, h.2.1⟩

/-- C4: ts-path candidate templates are tried against the filesystem
resolver in template-array order and the first that resolves wins; later
candidates are never consulted. With `paths: {"@app/*": ["a/*", "b/*"]}`
and only `b/AnotherFile` on disk, `@app/AnotherFile` resolves under `b/`,
never under `a/`. -/
theorem ts_paths_first_candidate_wins :
    (∀ fs fuel pre c post r,
       (∀ a ∈ pre, fsResolve fs fuel a = none) →
       fsResolve fs fuel c = some r →
       firstResolve fs fuel (pre ++ c :: post) = some r)
    ∧ (∀ conf spec cands, firstPatternMatch conf.paths spec = some cands →
         tsCandidates conf spec = cands.map fun cd => joinPath conf.baseURL (stripDotSlash cd))
    ∧ resolveModule abFs abReq =
        some { isExternal := false, absPath := some "/h/b/AnotherFile.js",
               extension := some ".js", fuseBoxPath := some "b/AnotherFile.js",
               forcedStatement := some "~/b/AnotherFile.js", pkg := none }
    ∧ strStartsWith "/h/b/AnotherFile.js" "/h/b/" = true
    ∧ strStartsWith "/h/b/AnotherFile.js" "/h/a/" = false := by
  refine ⟨?_, ?_, by decide, by decide, by decide⟩
  · intro fs fuel pre
    induction pre with
    | nil =>
      intro c post r _ hc
      simp [firstResolve, hc]
    | cons a as ih =>
      intro c post r hnone hc
      have ha := hnone a (List.mem_cons_self a as)
      rw [List.cons_append]
      unfold firstResolve
      rw [ha]
      exact ih c post r (fun x hx => hnone x (List.mem_cons_of_mem a hx)) hc
  · intro conf spec cands h
    unfold tsCandidates
    rw [h]

/-- Witness for C4: the first conjunct applied to the two candidates of
the `@app/*` scenario, where the `a/*` candidate fails and `b/*` wins. -/
theorem ts_paths_first_candidate_wins_witness :
    firstResolve abFs resolverFuel (["/h/a/AnotherFile"] ++ "/h/b/AnotherFile" :: []) =
      some ⟨"/h/b/AnotherFile.js", false⟩ :=
  ts_paths_first_candidate_wins.1 abFs resolverFuel ["/h/a/AnotherFile"] "/h/b/AnotherFile"
    [] ⟨"/h/b/AnotherFile.js", false⟩ (by decide) (by decide)

/-- C5: an exact-match alias key (ending in `$`) matches only the full
specifier with the marker stripped and never a strict superstring of it; a
key without the marker matches any specifier starting with it and splices
the value in place of the prefix; the first matching entry in table order
wins; an absent or empty table leaves the specifier unchanged. -/
theorem alias_matching_semantics :
    (∀ k v s, listEndsWith k.data ['$'] = true →
       (aliasEntryMatch s (k, v) = some v ↔ s = strDropRight k 1))
    ∧ (∀ k v t, listEndsWith k.data ['$'] = true → t ≠ "" →
       aliasEntryMatch (strDropRight k 1 ++ t) (k, v) = none)
    ∧ (∀ k v s, listEndsWith k.data ['$'] = false → strStartsWith s k = true →
       aliasEntryMatch s (k, v) = some (v ++ strDrop s (strLen k)))
    ∧ (∀ pre e post s r, (∀ x ∈ pre, aliasEntryMatch s x = none) →
       aliasEntryMatch s e = some r →
       applyAlias (pre ++ e :: post) s = (true, r))
    ∧ (∀ s, applyAlias [] s = (false, s)) := by
  refine ⟨?_, ?_, ?_, ?_, fun s => rfl⟩
  · intro k v s h
    unfold aliasEntryMatch
    dsimp only
    by_cases hs : s = strDropRight k 1 <;> simp [h, hs]
  · intro k v t h ht
    have hne := strAppend_ne_self (strDropRight k 1) t ht
    unfold aliasEntryMatch
    dsimp only
    simp [h, hne]
  · intro k v s h hs
    unfold aliasEntryMatch
    dsimp only
    simp [h, hs]
  · intro pre
    induction pre with
    | nil =>
      intro e post s r _ he
      rw [List.nil_append]
      unfold applyAlias
      rw [he]
    | cons x xs ih =>
      intro e post s r hnone he
      have hx := hnone x (List.mem_cons_self x xs)
      rw [List.cons_append]
      unfold applyAlias
      rw [hx]
      exact ih e post s r (fun y hy => hnone y (List.mem_cons_of_mem x hy)) he

/-- Witness for C5: the exact-match key `ololo$` does not match the strict
superstring `ololox`, by the second conjunct at `t = "x"`. -/
theorem alias_matching_semantics_witness :
    aliasEntryMatch (strDropRight "ololo$" 1 ++ "x") ("ololo$", "./some1") = none :=
  alias_matching_semantics.2.1 "ololo$" "./some1" "x" (by decide) (by decide)

theorem cacheGet_lookup_after (fs : Fs) (c : PkgCache) (d : String) :
    lookupStr d (cacheGet fs c d).2.1.entries = some (cacheGet fs c d).1 := by
  unfold cacheGet
  cases h : lookupStr d c.entries with
  | some r => simp [h]
  | none => simp [h, lookupStr]

theorem cacheGet_keeps_key (fs : Fs) (c : PkgCache) (x d : String)
    (h : (lookupStr d c.entries).isSome = true) :
    (lookupStr d (cacheGet fs c x).2.1.entries).isSome = true := by
  unfold cacheGet
  cases hx : lookupStr x c.entries with
  | some r => simpa [hx] using h
  | none =>
    simp only [hx]
    unfold lookupStr
    by_cases hdx : d = x
    · simp [hdx]
    · simpa [hdx] using h

theorem readsFor_of_cached (fs : Fs) (d : String) :
    ∀ ds c, (lookupStr d c.entries).isSome = true → readsFor fs d c ds = 0 := by
  intro ds
  induction ds with
  | nil => intro c _; rfl
  | cons x xs ih =>
    intro c h
    unfold readsFor
    rw [ih _ (cacheGet_keeps_key fs c x d h)]
    by_cases hxd : x = d
    · subst hxd
      rw [if_pos rfl]
      unfold cacheGet
      cases hx : lookupStr x c.entries with
      | some r => simp [hx]
      | none => rw [hx] at h; simp at h
    · simp [hxd]

/-- C8: repeated resolutions into the same package directory read its
`package.json` at most once per build — any sequence of cache lookups
performs at most one filesystem read for a given directory, and a lookup
right after one for the same directory returns the cached descriptor, with
an unchanged cache and zero reads. -/
theorem package_json_read_at_most_once :
    (∀ fs d c ds, readsFor fs d c ds ≤ 1)
    ∧ (∀ fs c d, cacheGet fs (cacheGet fs c d).2.1 d =
        ((cacheGet fs c d).1, (cacheGet fs c d).2.1, 0)) := by
  constructor
  · intro fs d c ds
    induction ds generalizing c with
    | nil => simp [readsFor]
    | cons x xs ih =>
      unfold readsFor
      by_cases hxd : x = d
      · subst hxd
        have hafter : (lookupStr x (cacheGet fs c x).2.1.entries).isSome = true := by
          rw [cacheGet_lookup_after]
          rfl
        rw [readsFor_of_cached fs x xs _ hafter, if_pos rfl, Nat.add_zero]
        unfold cacheGet
        cases hx : lookupStr x c.entries with
        | some r => simp [hx]
        | none => simp [hx]
      · rw [if_neg hxd, Nat.zero_add]
        exact ih _
  · intro fs c d
    have h := cacheGet_lookup_after fs c d
    rcases hcg : cacheGet fs c d with ⟨r, c', n⟩
    rw [hcg] at h
    simp only at h ⊢
    unfold cacheGet
    rw [h]

/-- C7: a `baseUrl` outside `homeDir` (substring test, lines 150–156 of
TypescriptConfig.ts) makes `normalizeTSPaths` emit the configuration
warning and return without installing any path aliases — no regexp is
installed and `compilerOptions.paths` is left untouched; nothing fatal
happens. -/
theorem baseUrl_outside_homeDir_warns (re : String → String) (homeDir : String)
    (opts : TSOptions) (listing : List DirEntry)
    (h : strIncludes opts.baseUrl homeDir = false) :
    normalizeTSPaths re homeDir opts listing =
      { paths := none, warnings := [warnBaseUrl], regexpSources := [],
        tsPathsRegExpSet := false, earlyReturn := true } := by
  unfold normalizeTSPaths
  simp [h]

/-- Witness for C7: a concrete configuration whose `baseUrl` lies outside
`homeDir`. -/
theorem baseUrl_outside_homeDir_warns_witness :
    strIncludes "/elsewhere" "/home/proj" = false ∧
    normalizeTSPaths reTag "/home/proj"
        { baseUrl := "/elsewhere", paths := some [("a/*", .arr ["./a/*"])] } [] =
      { paths := none, warnings := [warnBaseUrl], regexpSources := [],
        tsPathsRegExpSet := false, earlyReturn := true } :=
  ⟨by decide,
   baseUrl_outside_homeDir_warns reTag "/home/proj"
     { baseUrl := "/elsewhere", paths := some [("a/*", .arr ["./a/*"])] } [] (by decide)⟩

/-- C2 counterexample: with `paths = {"a**": ["./a/*"], "b/*": ["./b/*"]}`
the invalid first key is warned about, but the valid `"b/*"` entry is
never processed — the user loop `break`s, leaving `paths` empty and no
regexp source — contradicting the claim that processing of all other
valid entries continues. -/
theorem invalid_ts_path_key_aborts_rest :
    (normalizeTSPaths reTag "/home/proj" badKeyOpts []).warnings = [warnKeyStars "a**"] ∧
    (normalizeTSPaths reTag "/home/proj" badKeyOpts []).paths = some [] ∧
    (normalizeTSPaths reTag "/home/proj" badKeyOpts []).regexpSources = [] := by
  decide

/-- C2 (amended): each invalid entry is reported as a warning and itself
skipped, and the resolution pass is not aborted; but an invalid pattern
key or a non-array candidate list stops processing of the remaining
pattern entries (`break` in the outer loop), while an invalid candidate
template only stops the remaining candidates of its own pattern (`break`
in the inner loop), after which the remaining pattern entries continue;
`normalizeTSPaths` itself always completes, still running the automatic
baseUrl scan. -/
theorem invalid_ts_path_entries_warn_and_break :
    (∀ re key v rest, hasMultiStar key = true →
       processUserPaths re ((key, v) :: rest) = ([], [], [warnKeyStars key]))
    ∧ (∀ re key s t rest, hasMultiStar key = false →
       processUserPaths re ((key, .other s t) :: rest) = ([], [], [warnNonArray key s]))
    ∧ (∀ key l ls, hasMultiStar (backslashToSlash l) = true →
       processLookups key (l :: ls) = ([], [warnLookupStars key (backslashToSlash l)]))
    ∧ (∀ re key l rest, hasMultiStar key = false → hasMultiStar (backslashToSlash l) = true →
       processUserPaths re ((key, .arr [l]) :: rest) =
         ((processUserPaths re rest).1, (processUserPaths re rest).2.1,
          warnLookupStars key (backslashToSlash l) :: (processUserPaths re rest).2.2))
    ∧ (∀ re hd opts listing, strIncludes opts.baseUrl hd = true →
       (normalizeTSPaths re hd opts listing).earlyReturn = false ∧
       (normalizeTSPaths re hd opts listing).regexpSources =
         (processUserPaths re (opts.paths.getD [])).2.1 ++
           (scanBaseUrl re opts.allowJs listing (opts.paths.getD [])).2) := by
  refine ⟨?_, ?_, ?_, ?_, ?_⟩
  · intro re key v rest h
    unfold processUserPaths
    simp [h]
  · intro re key s t rest h
    unfold processUserPaths
    simp [h]
  · intro key l ls h
    unfold processLookups
    simp [h]
  · intro re key l rest hk hl
    simp only [processUserPaths, processLookups, hk, hl]
    simp
  · intro re hd opts listing h
    unfold normalizeTSPaths
    simp [h]

/-- Witness for C2: the amended first conjunct applied to the concrete
configuration of the counterexample. -/
theorem invalid_ts_path_entries_warn_and_break_witness :
    processUserPaths reTag
        [("a**", TsPathsEntryVal.arr ["./a/*"]), ("b/*", TsPathsEntryVal.arr ["./b/*"])] =
      ([], [], [warnKeyStars "a**"]) :=
  invalid_ts_path_entries_warn_and_break.1 reTag "a**" (TsPathsEntryVal.arr ["./a/*"])
    [("b/*", TsPathsEntryVal.arr ["./b/*"])] (by decide)

theorem processUserPaths_keys_subset (re : String → String) :
    ∀ entries k, k ∈ (processUserPaths re entries).1.map Prod.fst →
      k ∈ entries.map Prod.fst := by
  intro entries
  induction entries with
  | nil => intro k h; simp [processUserPaths] at h
  | cons e rest ih =>
    intro k h
    obtain ⟨key, val⟩ := e
    unfold processUserPaths at h
    split at h
    · simp at h
    · split at h
      · simp at h
      · simp only [] at h
        split at h
        · simp only [List.map_cons]
          exact List.mem_cons_of_mem _ (ih k h)
        · simp only [List.map_cons, List.mem_cons] at h ⊢
          rcases h with h | h
          · exact Or.inl h
          · exact Or.inr (ih k h)

/-- C9: after a successful `normalizeTSPaths` run the final
`compilerOptions.paths` is exactly the `normalizedPaths` computed from the
user-supplied entries (so it does not depend on the `baseUrl` directory
listing, and every key of it is a user key), while the automatic aliases
from scanning `baseUrl` only contribute to the combined regexp source
list. -/
theorem normalized_paths_overwrite :
    (∀ re hd opts listing, strIncludes opts.baseUrl hd = true →
       (normalizeTSPaths re hd opts listing).paths =
         some (processUserPaths re (opts.paths.getD [])).1 ∧
       (normalizeTSPaths re hd opts listing).regexpSources =
         (processUserPaths re (opts.paths.getD [])).2.1 ++
           (scanBaseUrl re opts.allowJs listing (opts.paths.getD [])).2)
    ∧ (∀ re entries k, k ∈ (processUserPaths re entries).1.map Prod.fst →
        k ∈ entries.map Prod.fst) := by
  constructor
  · intro re hd opts listing h
    unfold normalizeTSPaths
    simp [h]
  · exact processUserPaths_keys_subset

/-- Witness for C9: one user path entry plus a listing generating two
automatic aliases — the auto aliases appear in the regexp sources but not
in the final `paths`. -/
theorem normalized_paths_overwrite_witness :
    (normalizeTSPaths reTag "/home/proj" oneUserPathOpts sampleListing).paths =
      some [("@app/*", ["./app/*"])] ∧
    (normalizeTSPaths reTag "/home/proj" oneUserPathOpts sampleListing).regexpSources =
      ["(@app/*)", "(components/*)", "(Moi)"] := by
  have h := normalized_paths_overwrite.1 reTag "/home/proj" oneUserPathOpts sampleListing
    (by decide)
  exact ⟨h.1.trans (by decide), h.2.trans (by decide)⟩

end FuseBox
